import Mathlib

/-!
Verification development for the `mersal_polling` result-correlation engine.

The Python sources are shallowly embedded:

* `PollingStatus`, `ProblemDetails`, `PollingResult` mirror the value types of
  `src/mersal_polling/poller.py` (Python `dict[str, Any]` payloads become
  association lists of strings, which is all the claims need).
* `DefaultPoller` mirrors the in-memory store of
  `src/mersal_polling/default_poller.py`.  Its two Python dicts `results` and
  `events` become association lists keyed by message id.  `anyio.Event`
  objects are modelled by generation numbers: `events` maps an id to the
  generation of its current event object, `fired` is the set of event
  generations whose `set()` has been called, and `nextGen` supplies fresh
  generations for `Event()` constructions.  An event generation is the pair
  (message id it was created for, running counter), since every `Event()` in
  the source is created as `self.events[message_id] = Event()`.
* The coroutine `DefaultPoller.poll` is embedded as its two atomic segments
  (code between `await` suspension points runs without interleaving under
  anyio's cooperative scheduler): `pollStart` is the code from entry to the
  first `await self.events[message_id].wait()`, and `pollWake` is one
  iteration of the `while True` loop body after the wait completes.
* A whole-system small-step relation `Step` interleaves `push` calls, `poll`
  task segments, new `poll` arrivals and timeout cancellations
  (`PollerWithTimeout` / `anyio.fail_after` abandoning a wait).
-/

/-- Message identifiers (`uuid.UUID` in the source): an opaque decidable key. -/
abbrev MessageId := Nat

/-- `PollingStatus = Literal["accepted", "succeeded", "failed"]` from poller.py. -/
inductive PollingStatus where
  | accepted
  | succeeded
  | failed
deriving DecidableEq, Repr

/-- Payload dictionaries (`dict[str, Any]`): association lists of strings. -/
abbrev Payload := List (String × String)

/-- `ProblemDetails` dataclass from poller.py (RFC 7807 problem details). -/
structure ProblemDetails where
  type : String
  title : String
  status : Int
  detail : Option String
  instance_ : Option String
  extensions : Payload
deriving DecidableEq, Repr

/-- `PollingResult` dataclass from poller.py. -/
structure PollingResult where
  message_id : MessageId
  status : PollingStatus
  data : Option Payload
  problem : Option ProblemDetails
deriving DecidableEq, Repr

namespace PollingResult

/-- `PollingResult.is_accepted`: `self.status == "accepted"`. -/
def is_accepted (r : PollingResult) : Bool :=
  r.status == PollingStatus.accepted

/-- `PollingResult.is_success`: `self.status == "succeeded" and self.problem is None`. -/
def is_success (r : PollingResult) : Bool :=
  r.status == PollingStatus.succeeded && r.problem.isNone

/-- `PollingResult.is_failure`: `self.status == "failed" or self.problem is not None`. -/
def is_failure (r : PollingResult) : Bool :=
  r.status == PollingStatus.failed || r.problem.isSome

end PollingResult

/-! ### Python `dict` as an association list

`dictInsert` is `d[k] = v` (replaces in place, keeps one entry per key),
`dictGet` is `d.get(k)`. -/

/-- `d[k] = v` on a Python dict: replace the entry for `k` if present, else append. -/
def dictInsert (k : MessageId) (v : α) : List (MessageId × α) → List (MessageId × α)
  | [] => [(k, v)]
  | (k', v') :: rest =>
      if k' = k then (k, v) :: rest else (k', v') :: dictInsert k v rest

/-- `d.get(k)` on a Python dict. -/
def dictGet (k : MessageId) : List (MessageId × α) → Option α
  | [] => none
  | (k', v') :: rest => if k' = k then some v' else dictGet k rest

theorem dictGet_insert_self (k : MessageId) (v : α) (l : List (MessageId × α)) :
    dictGet k (dictInsert k v l) = some v := by
  induction l with
  | nil => simp [dictInsert, dictGet]
  | cons hd tl ih =>
      obtain ⟨k', v'⟩ := hd
      by_cases h : k' = k
      · simp [dictInsert, dictGet, h]
      · simp [dictInsert, dictGet, h, ih]

theorem dictGet_insert_ne (k k' : MessageId) (v : α) (l : List (MessageId × α))
    (h : k' ≠ k) : dictGet k' (dictInsert k v l) = dictGet k' l := by
  have hk : k ≠ k' := Ne.symm h
  induction l with
  | nil => simp [dictInsert, dictGet, hk]
  | cons hd tl ih =>
      obtain ⟨k₀, v₀⟩ := hd
      by_cases h0 : k₀ = k
      · subst h0
        simp [dictInsert, dictGet, hk]
      · by_cases h1 : k₀ = k'
        · simp [dictInsert, dictGet, h0, h1, h]
        · simp [dictInsert, dictGet, h0, h1, ih]

theorem dictGet_insert_isSome (k k' : MessageId) (v : α) (l : List (MessageId × α))
    (h : (dictGet k' l).isSome = true) :
    (dictGet k' (dictInsert k v l)).isSome = true := by
  by_cases hk : k' = k
  · subst hk; simp [dictGet_insert_self]
  · rwa [dictGet_insert_ne k k' v l hk]

theorem mem_dictInsert (k : MessageId) (v : α) (l : List (MessageId × α))
    (p : MessageId × α) (h : p ∈ dictInsert k v l) : p = (k, v) ∨ p ∈ l := by
  induction l with
  | nil => simpa [dictInsert] using h
  | cons hd tl ih =>
      obtain ⟨k₀, v₀⟩ := hd
      by_cases h0 : k₀ = k
      · simp only [dictInsert, h0, if_pos rfl] at h
        rcases List.mem_cons.mp h with h1 | h1
        · exact Or.inl h1
        · exact Or.inr (List.mem_cons_of_mem _ h1)
      · simp only [dictInsert, if_neg h0] at h
        rcases List.mem_cons.mp h with h1 | h1
        · exact Or.inr (h1 ▸ List.mem_cons_self _ _)
        · rcases ih h1 with h2 | h2
          · exact Or.inl h2
          · exact Or.inr (List.mem_cons_of_mem _ h2)

theorem keys_dictInsert_subset (k : MessageId) (v : α) (l : List (MessageId × α))
    (a : MessageId) (h : a ∈ (dictInsert k v l).map Prod.fst) :
    a = k ∨ a ∈ l.map Prod.fst := by
  rcases List.mem_map.mp h with ⟨p, hp, hpa⟩
  rcases mem_dictInsert k v l p hp with h1 | h1
  · left; rw [← hpa, h1]
  · right; exact hpa ▸ List.mem_map_of_mem Prod.fst h1

theorem nodup_keys_dictInsert (k : MessageId) (v : α) (l : List (MessageId × α))
    (h : (l.map Prod.fst).Nodup) : ((dictInsert k v l).map Prod.fst).Nodup := by
  induction l with
  | nil => simp [dictInsert]
  | cons hd tl ih =>
      obtain ⟨k₀, v₀⟩ := hd
      simp only [List.map_cons, List.nodup_cons] at h
      by_cases h0 : k₀ = k
      · subst h0
        simpa [dictInsert, List.nodup_cons] using h
      · have htl := ih h.2
        simp only [dictInsert, if_neg h0, List.map_cons, List.nodup_cons]
        refine ⟨fun hmem => ?_, htl⟩
        rcases keys_dictInsert_subset k v tl k₀ hmem with h1 | h1
        · exact h0 h1
        · exact h.1 h1

/-! ### The in-memory store (`default_poller.py`) -/

/-- Event identities: (message id the `Event()` was stored under, generation). -/
abbrev EventId := MessageId × Nat

/-- State of a `DefaultPoller` instance plus the state of its `anyio.Event`
objects.  `results` and `events` are the two dicts of `__init__`; `fired`
records which event objects have been `set()`; `nextGen` numbers `Event()`
constructions. -/
structure DefaultPoller where
  results : List (MessageId × PollingResult)
  events : List (MessageId × Nat)
  fired : List EventId
  nextGen : Nat
deriving DecidableEq, Repr

namespace DefaultPoller

/-- `DefaultPoller.__init__`: two empty dicts, no events created or fired. -/
def init : DefaultPoller := ⟨[], [], [], 0⟩

/-- The filter test of `poll`:
`not exclude_statuses or message.status not in exclude_statuses`.
(`exclude_statuses=None` and `[]` are both falsy, modelled by the empty list.) -/
def passesFilter (excl : List PollingStatus) (s : PollingStatus) : Bool :=
  excl.isEmpty || !(decide (s ∈ excl))

/-- `Event.set()` on the event object `e`: mark it fired (idempotent). -/
def fireEvent (e : EventId) (l : List EventId) : List EventId :=
  if e ∈ l then l else e :: l

/-- `DefaultPoller.push(message_id, status, data, problem)`:
store the result (overwriting), then `if message_id in self.events:
self.events[message_id].set()`. -/
def push (σ : DefaultPoller) (message_id : MessageId) (status : PollingStatus)
    (data : Option Payload) (problem : Option ProblemDetails) : DefaultPoller :=
  let r : PollingResult := ⟨message_id, status, data, problem⟩
  let results' := dictInsert message_id r σ.results
  match dictGet message_id σ.events with
  | some g => { σ with results := results', fired := fireEvent (message_id, g) σ.fired }
  | none => { σ with results := results' }

/-- Number of `Event.set()` calls a `push(message_id, ...)` performs:
one when `message_id in self.events`, zero otherwise. -/
def pushSetCalls (σ : DefaultPoller) (message_id : MessageId) : Nat :=
  match dictGet message_id σ.events with
  | some _ => 1
  | none => 0

/-- `DefaultPoller.peek(message_id, exclude_statuses)`:
`message = self.results.get(message_id)`; return `None` when the record
exists, the filter list is truthy and the status is filtered; else the record. -/
def peek (σ : DefaultPoller) (message_id : MessageId)
    (excl : List PollingStatus) : Option PollingResult :=
  match dictGet message_id σ.results with
  | none => none
  | some r => if !excl.isEmpty && decide (r.status ∈ excl) then none else some r

/-- Where a `poll` task stands. -/
inductive Phase where
  | start
  | waiting (e : EventId)
  | done (r : PollingResult)
  | cancelled
  | error
deriving DecidableEq, Repr

/-- `DefaultPoller.poll`, entry to first suspension: check the existing
record, lazily create `self.events[message_id]`, and suspend on the current
event (`await self.events[message_id].wait()`).  Returns the updated store
and the task's new phase. -/
def pollStart (σ : DefaultPoller) (message_id : MessageId)
    (excl : List PollingStatus) : DefaultPoller × Phase :=
  match dictGet message_id σ.results with
  | some r =>
      if passesFilter excl r.status then (σ, Phase.done r)
      else
        match dictGet message_id σ.events with
        | some g => (σ, Phase.waiting (message_id, g))
        | none =>
            ({ σ with events := dictInsert message_id σ.nextGen σ.events,
                      nextGen := σ.nextGen + 1 },
             Phase.waiting (message_id, σ.nextGen))
  | none =>
      match dictGet message_id σ.events with
      | some g => (σ, Phase.waiting (message_id, g))
      | none =>
          ({ σ with events := dictInsert message_id σ.nextGen σ.events,
                    nextGen := σ.nextGen + 1 },
           Phase.waiting (message_id, σ.nextGen))

/-- One iteration of `poll`'s `while True` body, run when the awaited event
has been set: `message = self.results[message_id]` (a `KeyError` — modelled
as `Phase.error` — if absent), return it if it passes the filter, else
`self.events[message_id] = Event()` (unconditional replacement) and suspend
on the fresh event. -/
def pollWake (σ : DefaultPoller) (message_id : MessageId)
    (excl : List PollingStatus) : DefaultPoller × Phase :=
  match dictGet message_id σ.results with
  | none => (σ, Phase.error)
  | some r =>
      if passesFilter excl r.status then (σ, Phase.done r)
      else
        ({ σ with events := dictInsert message_id σ.nextGen σ.events,
                  nextGen := σ.nextGen + 1 },
         Phase.waiting (message_id, σ.nextGen))

end DefaultPoller

/-! ### Whole-system interleaving semantics -/

/-- One `poll(id, exclude_statuses)` task and where it stands. -/
structure Waiter where
  id : MessageId
  excl : List PollingStatus
  phase : DefaultPoller.Phase
deriving DecidableEq, Repr

/-- Read index `i` of a task list. -/
def getIdx (i : Nat) : List α → Option α
  | [] => none
  | a :: t => match i with
    | 0 => some a
    | n + 1 => getIdx n t

/-- Replace index `i` of a task list (identity when out of range). -/
def setIdx (i : Nat) (b : α) : List α → List α
  | [] => []
  | a :: t => match i with
    | 0 => b :: t
    | n + 1 => a :: setIdx n b t

theorem getIdx_setIdx_self (i : Nat) (b : α) (l : List α) (a : α)
    (h : getIdx i l = some a) : getIdx i (setIdx i b l) = some b := by
  induction l generalizing i with
  | nil => simp [getIdx] at h
  | cons hd tl ih =>
      cases i with
      | zero => simp [getIdx, setIdx]
      | succ n => simpa [getIdx, setIdx] using ih n (by simpa [getIdx] using h)

theorem getIdx_setIdx_ne (i j : Nat) (b : α) (l : List α) (h : i ≠ j) :
    getIdx i (setIdx j b l) = getIdx i l := by
  induction l generalizing i j with
  | nil => simp [setIdx]
  | cons hd tl ih =>
      cases j with
      | zero =>
          cases i with
          | zero => exact absurd rfl h
          | succ n => simp [getIdx, setIdx]
      | succ m =>
          cases i with
          | zero => simp [getIdx, setIdx]
          | succ n => simpa [getIdx, setIdx] using ih n m (fun hh => h (by omega))

theorem getIdx_append_left (i : Nat) (l l' : List α) (a : α)
    (h : getIdx i l = some a) : getIdx i (l ++ l') = some a := by
  induction l generalizing i with
  | nil => simp [getIdx] at h
  | cons hd tl ih =>
      cases i with
      | zero => simpa [getIdx] using h
      | succ n => simpa [getIdx] using ih n (by simpa [getIdx] using h)

theorem mem_of_getIdx (i : Nat) (l : List α) (a : α) (h : getIdx i l = some a) :
    a ∈ l := by
  induction l generalizing i with
  | nil => simp [getIdx] at h
  | cons hd tl ih =>
      cases i with
      | zero => simp [getIdx] at h; simp [h]
      | succ n => exact List.mem_cons_of_mem _ (ih n (by simpa [getIdx] using h))

theorem mem_setIdx (i : Nat) (b : α) (l : List α) (a : α)
    (h : a ∈ setIdx i b l) : a = b ∨ a ∈ l := by
  induction l generalizing i with
  | nil => simp [setIdx] at h
  | cons hd tl ih =>
      cases i with
      | zero =>
          rcases List.mem_cons.mp h with h1 | h1
          · exact Or.inl h1
          · exact Or.inr (List.mem_cons_of_mem _ h1)
      | succ n =>
          rcases List.mem_cons.mp h with h1 | h1
          · exact Or.inr (h1 ▸ List.mem_cons_self _ _)
          · rcases ih n h1 with h2 | h2
            · exact Or.inl h2
            · exact Or.inr (List.mem_cons_of_mem _ h2)

/-- Whole system: the shared store and every `poll` task ever started. -/
structure Sys where
  store : DefaultPoller
  waiters : List Waiter
deriving DecidableEq, Repr

/-- The system before any call: fresh `DefaultPoller()`, no tasks. -/
def initSys : Sys := ⟨DefaultPoller.init, []⟩

/-- Action labels of the small-step semantics. -/
inductive Act where
  | push (id : MessageId) (status : PollingStatus)
      (data : Option Payload) (problem : Option ProblemDetails)
  | spawn (id : MessageId) (excl : List PollingStatus)
  | startTask (i : Nat)
  | wakeTask (i : Nat)
  | cancelTask (i : Nat)
deriving DecidableEq, Repr

/-- Small-step interleaving semantics of the store and its clients:
a `push` call (atomic, no suspension point), the arrival of a new `poll`
call, the pre-suspension segment of a `poll` task, the loop body of a
woken `poll` task (enabled only when the awaited event has been `set()`),
and timeout cancellation of a task by `PollerWithTimeout`/`anyio.fail_after`
(which only abandons the wait). -/
inductive Step : Sys → Act → Sys → Prop where
  | push (s : Sys) (id : MessageId) (st : PollingStatus)
      (d : Option Payload) (p : Option ProblemDetails) :
      Step s (Act.push id st d p) ⟨s.store.push id st d p, s.waiters⟩
  | spawn (s : Sys) (id : MessageId) (excl : List PollingStatus) :
      Step s (Act.spawn id excl) ⟨s.store, s.waiters ++ [⟨id, excl, DefaultPoller.Phase.start⟩]⟩
  | startTask (s : Sys) (i : Nat) (w : Waiter)
      (hw : getIdx i s.waiters = some w) (hp : w.phase = DefaultPoller.Phase.start) :
      Step s (Act.startTask i)
        ⟨(DefaultPoller.pollStart s.store w.id w.excl).1,
         setIdx i ⟨w.id, w.excl, (DefaultPoller.pollStart s.store w.id w.excl).2⟩ s.waiters⟩
  | wakeTask (s : Sys) (i : Nat) (w : Waiter) (e : EventId)
      (hw : getIdx i s.waiters = some w) (hp : w.phase = DefaultPoller.Phase.waiting e)
      (hf : e ∈ s.store.fired) :
      Step s (Act.wakeTask i)
        ⟨(DefaultPoller.pollWake s.store w.id w.excl).1,
         setIdx i ⟨w.id, w.excl, (DefaultPoller.pollWake s.store w.id w.excl).2⟩ s.waiters⟩
  | cancelTask (s : Sys) (i : Nat) (w : Waiter) (e : EventId)
      (hw : getIdx i s.waiters = some w) (hp : w.phase = DefaultPoller.Phase.waiting e) :
      Step s (Act.cancelTask i)
        ⟨s.store, setIdx i ⟨w.id, w.excl, DefaultPoller.Phase.cancelled⟩ s.waiters⟩

/-- Multi-step execution along a list of actions. -/
inductive Steps : Sys → List Act → Sys → Prop where
  | nil (s : Sys) : Steps s [] s
  | cons {s s' s'' : Sys} {a : Act} {acts : List Act}
      (h : Step s a s') (hs : Steps s' acts s'') : Steps s (a :: acts) s''

/-- States reachable from a fresh `DefaultPoller()` with no tasks. -/
inductive Reachable : Sys → Prop where
  | init : Reachable initSys
  | step {s s' : Sys} {a : Act} (h : Reachable s) (hstep : Step s a s') : Reachable s'

/-! ### Trace predicates on actions -/

/-- Is this action a `push` for the given id (any status)? -/
def Act.isPushFor (id : MessageId) : Act → Bool
  | Act.push id' _ _ _ => decide (id' = id)
  | _ => false

/-- Is this action a `push` for the given id with a status other than
`accepted` (a "later push with status succeeded or failed")? -/
def Act.isCompletingPushFor (id : MessageId) : Act → Bool
  | Act.push id' st _ _ => decide (id' = id) && decide (st ≠ PollingStatus.accepted)
  | _ => false

/-! ### FailureBridge (`error_handler_poller_wrapper.py`) -/

/-- `message.headers` of a `TransportMessage` (only the field the wrapper uses). -/
structure MessageHeaders where
  message_id : MessageId
deriving DecidableEq, Repr

/-- The `TransportMessage` passed to the error handler. -/
structure TransportMessage where
  headers : MessageHeaders
deriving DecidableEq, Repr

/-- The transaction context is only forwarded, never inspected: an opaque token. -/
abbrev TransactionContext := Nat

/-- An exception, represented by its raw message text. -/
abbrev PyException := String

/-- Substring test on character lists (does the second list start with the first?). -/
def startsWithChars : List Char → List Char → Bool
  | [], _ => true
  | _ :: _, [] => false
  | a :: as, b :: bs => a = b && startsWithChars as bs

/-- Substring test on character lists (does the needle occur anywhere?). -/
def containsChars (needle : List Char) : List Char → Bool
  | [] => startsWithChars needle []
  | b :: bs => startsWithChars needle (b :: bs) || containsChars needle bs

/-- Does `hay` contain `needle` as a (contiguous) substring? -/
def strContainsSub (hay needle : String) : Bool :=
  containsChars needle.data hay.data

namespace ErrorHandlerPollerWrapper

/-- The fixed `detail` text of `_default_problem_factory`. -/
def defaultDetailText : String :=
  "An unexpected error occurred while processing your request. Please try again later."

/-- `ErrorHandlerPollerWrapper._default_problem_factory(exception, message)`:
a generic 500 ProblemDetails whose text does not depend on the exception. -/
def default_problem_factory (exception : PyException) (message : TransportMessage) :
    ProblemDetails :=
  { type := "https://problems.mersal.dev/technical-error"
    title := "Technical Error"
    status := 500
    detail := some defaultDetailText
    instance_ := some ("/messages/" ++ toString message.headers.message_id)
    extensions := [] }

/-- `ErrorHandlerPollerWrapper.handle_poison_message` with no configured
`problem_factory` (so `self.problem_factory = self._default_problem_factory`)
over a `DefaultPoller`: first forwards `(message, transaction_context,
exception)` to the wrapped error handler unchanged (returned as the first
component), then pushes a failed record with the factory's problem for
`message.headers.message_id`. -/
def handle_poison_message (poller : DefaultPoller) (message : TransportMessage)
    (transaction_context : TransactionContext) (exception : PyException) :
    (TransportMessage × TransactionContext × PyException) × DefaultPoller :=
  ((message, transaction_context, exception),
   poller.push message.headers.message_id PollingStatus.failed none
     (some (default_problem_factory exception message)))

end ErrorHandlerPollerWrapper

/-! ### PollerWithTimeout (`poller_with_timeout.py`) -/

/-- The error surface of `PollerWithTimeout.poll`: the builtin `TimeoutError`
raised by `anyio.fail_after`, and the repository's `PollingTimeoutError`. -/
inductive RaisedKind where
  | pollingTimeoutError
  | timeoutError
deriving DecidableEq, Repr

namespace PollerWithTimeout

/-- The `except TimeoutError as e: raise PollingTimeoutError() from e` clause
of `PollerWithTimeout.poll`: what escapes to the caller when the wait is cut
off by `fail_after`. -/
def translateTimeout : RaisedKind → RaisedKind
  | RaisedKind.timeoutError => RaisedKind.pollingTimeoutError
  | e => e

end PollerWithTimeout

/-! ### Declaration surface of `config.py` and `__init__.py` -/

/-- The classes defined by `src/mersal_polling/config.py` (its `__all__` and
`@dataclass` definitions). -/
def configModuleClasses : List String :=
  ["FailedCompletionCorrelation", "PollingConfig", "SuccessfulCompletionCorrelation"]

/-- The fields of the `PollingConfig` dataclass in `src/mersal_polling/config.py`. -/
def pollingConfigFields : List String :=
  ["poller", "successful_completion_events_map", "failed_completion_events_map",
   "auto_publish_completion_events", "exclude_from_completion_events", "problem_factory"]

/-- The names `src/mersal_polling/__init__.py` imports from `.config`. -/
def initImportsFromConfig : List String :=
  ["AcceptedCorrelation", "FailedCompletionCorrelation", "PollingConfig",
   "SuccessfulCompletionCorrelation"]

/-! ### Basic lemmas about the store operations -/

namespace DefaultPoller

theorem passesFilter_iff (excl : List PollingStatus) (s : PollingStatus) :
    passesFilter excl s = true ↔ s ∉ excl := by
  constructor
  · intro h hmem
    rcases Bool.or_eq_true_iff.mp h with h1 | h1
    · rw [List.isEmpty_iff] at h1; subst h1; simp at hmem
    · simp at h1; exact h1 hmem
  · intro h
    apply Bool.or_eq_true_iff.mpr
    right; simpa using h

theorem push_results (σ : DefaultPoller) (id : MessageId) (st : PollingStatus)
    (d : Option Payload) (p : Option ProblemDetails) :
    (σ.push id st d p).results = dictInsert id ⟨id, st, d, p⟩ σ.results := by
  unfold push
  cases h : dictGet id σ.events <;> simp [h]

theorem push_events (σ : DefaultPoller) (id : MessageId) (st : PollingStatus)
    (d : Option Payload) (p : Option ProblemDetails) :
    (σ.push id st d p).events = σ.events := by
  unfold push
  cases h : dictGet id σ.events <;> simp [h]

theorem push_nextGen (σ : DefaultPoller) (id : MessageId) (st : PollingStatus)
    (d : Option Payload) (p : Option ProblemDetails) :
    (σ.push id st d p).nextGen = σ.nextGen := by
  unfold push
  cases h : dictGet id σ.events <;> simp [h]

theorem push_fired_none (σ : DefaultPoller) (id : MessageId) (st : PollingStatus)
    (d : Option Payload) (p : Option ProblemDetails)
    (h : dictGet id σ.events = none) : (σ.push id st d p).fired = σ.fired := by
  unfold push
  simp [h]

theorem push_fired_some (σ : DefaultPoller) (id : MessageId) (st : PollingStatus)
    (d : Option Payload) (p : Option ProblemDetails) (g : Nat)
    (h : dictGet id σ.events = some g) :
    (σ.push id st d p).fired = fireEvent (id, g) σ.fired := by
  unfold push
  simp [h]

theorem mem_fireEvent (e e' : EventId) (l : List EventId)
    (h : e' ∈ fireEvent e l) : e' = e ∨ e' ∈ l := by
  unfold fireEvent at h
  by_cases hm : e ∈ l
  · simp [hm] at h; exact Or.inr h
  · simp [hm] at h
    rcases h with h1 | h1
    · exact Or.inl h1
    · exact Or.inr h1

theorem mem_fireEvent_self (e : EventId) (l : List EventId) : e ∈ fireEvent e l := by
  unfold fireEvent
  by_cases hm : e ∈ l <;> simp [hm]

theorem pollStart_results (σ : DefaultPoller) (id : MessageId)
    (excl : List PollingStatus) : (σ.pollStart id excl).1.results = σ.results := by
  unfold pollStart
  cases hr : dictGet id σ.results with
  | none => cases he : dictGet id σ.events <;> simp [he]
  | some r =>
      by_cases hp : passesFilter excl r.status
      · simp [hp]
      · cases he : dictGet id σ.events <;> simp [hp, he]

theorem pollStart_fired (σ : DefaultPoller) (id : MessageId)
    (excl : List PollingStatus) : (σ.pollStart id excl).1.fired = σ.fired := by
  unfold pollStart
  cases hr : dictGet id σ.results with
  | none => cases he : dictGet id σ.events <;> simp [he]
  | some r =>
      by_cases hp : passesFilter excl r.status
      · simp [hp]
      · cases he : dictGet id σ.events <;> simp [hp, he]

theorem pollWake_results (σ : DefaultPoller) (id : MessageId)
    (excl : List PollingStatus) : (σ.pollWake id excl).1.results = σ.results := by
  unfold pollWake
  cases hr : dictGet id σ.results with
  | none => simp
  | some r => by_cases hp : passesFilter excl r.status <;> simp [hp]

theorem pollWake_fired (σ : DefaultPoller) (id : MessageId)
    (excl : List PollingStatus) : (σ.pollWake id excl).1.fired = σ.fired := by
  unfold pollWake
  cases hr : dictGet id σ.results with
  | none => simp
  | some r => by_cases hp : passesFilter excl r.status <;> simp [hp]

theorem pollStart_done (σ : DefaultPoller) (id : MessageId)
    (excl : List PollingStatus) (r : PollingResult)
    (h : (σ.pollStart id excl).2 = Phase.done r) :
    dictGet id σ.results = some r ∧ passesFilter excl r.status = true := by
  unfold pollStart at h
  cases hr : dictGet id σ.results with
  | none =>
      rw [hr] at h
      cases he : dictGet id σ.events <;> rw [he] at h <;> simp at h
  | some r' =>
      rw [hr] at h
      by_cases hp : passesFilter excl r'.status
      · simp [hp] at h
        cases h
        exact ⟨rfl, hp⟩
      · cases he : dictGet id σ.events <;> rw [he] at h <;> simp [hp] at h

theorem pollWake_done (σ : DefaultPoller) (id : MessageId)
    (excl : List PollingStatus) (r : PollingResult)
    (h : (σ.pollWake id excl).2 = Phase.done r) :
    dictGet id σ.results = some r ∧ passesFilter excl r.status = true := by
  unfold pollWake at h
  cases hr : dictGet id σ.results with
  | none => rw [hr] at h; simp at h
  | some r' =>
      rw [hr] at h
      by_cases hp : passesFilter excl r'.status
      · simp [hp] at h
        cases h
        exact ⟨rfl, hp⟩
      · simp [hp] at h

theorem pollStart_immediate (σ : DefaultPoller) (id : MessageId)
    (excl : List PollingStatus) (r : PollingResult)
    (hr : dictGet id σ.results = some r) (hp : passesFilter excl r.status = true) :
    σ.pollStart id excl = (σ, Phase.done r) := by
  unfold pollStart
  rw [hr]
  simp [hp]

theorem pollStart_not_error (σ : DefaultPoller) (id : MessageId)
    (excl : List PollingStatus) : (σ.pollStart id excl).2 ≠ Phase.error := by
  unfold pollStart
  cases hr : dictGet id σ.results with
  | none => cases he : dictGet id σ.events <;> simp [he]
  | some r =>
      by_cases hp : passesFilter excl r.status
      · simp [hp]
      · cases he : dictGet id σ.events <;> simp [hp, he]

theorem pollWake_not_error (σ : DefaultPoller) (id : MessageId)
    (excl : List PollingStatus) (h : (dictGet id σ.results).isSome = true) :
    (σ.pollWake id excl).2 ≠ Phase.error := by
  unfold pollWake
  cases hr : dictGet id σ.results with
  | none => rw [hr] at h; simp at h
  | some r => by_cases hp : passesFilter excl r.status <;> simp [hp]

theorem pollStart_waiting_id (σ : DefaultPoller) (id : MessageId)
    (excl : List PollingStatus) (e : EventId)
    (h : (σ.pollStart id excl).2 = Phase.waiting e) : e.1 = id := by
  unfold pollStart at h
  cases hr : dictGet id σ.results with
  | none =>
      rw [hr] at h
      cases he : dictGet id σ.events <;> rw [he] at h <;> simp at h <;> cases h <;> rfl
  | some r =>
      rw [hr] at h
      by_cases hp : passesFilter excl r.status
      · simp [hp] at h
      · cases he : dictGet id σ.events <;> rw [he] at h <;> simp [hp] at h <;>
          cases h <;> rfl

theorem pollWake_waiting_id (σ : DefaultPoller) (id : MessageId)
    (excl : List PollingStatus) (e : EventId)
    (h : (σ.pollWake id excl).2 = Phase.waiting e) : e.1 = id := by
  unfold pollWake at h
  cases hr : dictGet id σ.results with
  | none => rw [hr] at h; simp at h
  | some r =>
      rw [hr] at h
      by_cases hp : passesFilter excl r.status
      · simp [hp] at h
      · simp [hp] at h
        cases h
        rfl

end DefaultPoller

/-! ### The global safety invariant -/

/-- Invariant of every reachable system state:
an event is only ever fired by a `push` that stored a record for the same id
in the same atomic step (and records are never deleted); a task only ever
waits on events created for its own id; the results dict has one entry per
key; every stored record's `message_id` field equals its key; and no task
has hit the unguarded `self.results[message_id]` lookup with the key absent. -/
structure SysInv (s : Sys) : Prop where
  fired_has_result : ∀ e ∈ s.store.fired, (dictGet e.1 s.store.results).isSome = true
  waiting_id : ∀ w ∈ s.waiters, ∀ e : EventId, w.phase = DefaultPoller.Phase.waiting e → e.1 = w.id
  keys_nodup : (s.store.results.map Prod.fst).Nodup
  key_eq : ∀ p ∈ s.store.results, (p.2).message_id = p.1
  no_error : ∀ w ∈ s.waiters, w.phase ≠ DefaultPoller.Phase.error

theorem SysInv.initial : SysInv initSys := by
  constructor <;> simp [initSys, DefaultPoller.init]

theorem SysInv.preserved {s s' : Sys} {a : Act} (hstep : Step s a s') (h : SysInv s) :
    SysInv s' := by
  cases hstep with
  | push id st d p =>
      have hres := DefaultPoller.push_results s.store id st d p
      constructor
      · intro e he
        dsimp only at he ⊢
        rw [hres]
        rcases h0 : dictGet id s.store.events with _ | g
        · rw [DefaultPoller.push_fired_none _ _ _ _ _ h0] at he
          exact dictGet_insert_isSome _ _ _ _ (h.fired_has_result e he)
        · rw [DefaultPoller.push_fired_some _ _ _ _ _ g h0] at he
          rcases DefaultPoller.mem_fireEvent _ _ _ he with h1 | h1
          · subst h1
            simp [dictGet_insert_self]
          · exact dictGet_insert_isSome _ _ _ _ (h.fired_has_result e h1)
      · exact h.waiting_id
      · dsimp only
        rw [hres]
        exact nodup_keys_dictInsert _ _ _ h.keys_nodup
      · intro q hq
        dsimp only at hq
        rw [hres] at hq
        rcases mem_dictInsert _ _ _ _ hq with h1 | h1
        · subst h1; rfl
        · exact h.key_eq q h1
      · exact h.no_error
  | spawn id excl =>
      constructor
      · exact h.fired_has_result
      · intro w hw e hph
        dsimp only at hw
        rcases List.mem_append.mp hw with h1 | h1
        · exact h.waiting_id w h1 e hph
        · simp at h1
          rw [h1] at hph
          simp at hph
      · exact h.keys_nodup
      · exact h.key_eq
      · intro w hw
        dsimp only at hw
        rcases List.mem_append.mp hw with h1 | h1
        · exact h.no_error w h1
        · simp at h1
          rw [h1]
          simp
  | startTask i w hw hp =>
      have hres := DefaultPoller.pollStart_results s.store w.id w.excl
      have hfir := DefaultPoller.pollStart_fired s.store w.id w.excl
      constructor
      · intro e he
        dsimp only at he ⊢
        rw [hres]
        rw [hfir] at he
        exact h.fired_has_result e he
      · intro w' hw' e hph
        dsimp only at hw'
        rcases mem_setIdx _ _ _ _ hw' with h1 | h1
        · subst h1
          exact DefaultPoller.pollStart_waiting_id s.store w.id w.excl e hph
        · exact h.waiting_id w' h1 e hph
      · dsimp only
        rw [hres]
        exact h.keys_nodup
      · intro q hq
        dsimp only at hq
        rw [hres] at hq
        exact h.key_eq q hq
      · intro w' hw'
        dsimp only at hw'
        rcases mem_setIdx _ _ _ _ hw' with h1 | h1
        · subst h1
          exact DefaultPoller.pollStart_not_error s.store w.id w.excl
        · exact h.no_error w' h1
  | wakeTask i w e hw hp hf =>
      have hres := DefaultPoller.pollWake_results s.store w.id w.excl
      have hfir := DefaultPoller.pollWake_fired s.store w.id w.excl
      have hwid : e.1 = w.id := h.waiting_id w (mem_of_getIdx i _ w hw) e hp
      have hsome : (dictGet w.id s.store.results).isSome = true := by
        rw [← hwid]
        exact h.fired_has_result e hf
      constructor
      · intro e' he'
        dsimp only at he' ⊢
        rw [hres]
        rw [hfir] at he'
        exact h.fired_has_result e' he'
      · intro w' hw' e' hph
        dsimp only at hw'
        rcases mem_setIdx _ _ _ _ hw' with h1 | h1
        · subst h1
          exact DefaultPoller.pollWake_waiting_id s.store w.id w.excl e' hph
        · exact h.waiting_id w' h1 e' hph
      · dsimp only
        rw [hres]
        exact h.keys_nodup
      · intro q hq
        dsimp only at hq
        rw [hres] at hq
        exact h.key_eq q hq
      · intro w' hw'
        dsimp only at hw'
        rcases mem_setIdx _ _ _ _ hw' with h1 | h1
        · subst h1
          exact DefaultPoller.pollWake_not_error s.store w.id w.excl hsome
        · exact h.no_error w' h1
  | cancelTask i w e hw hp =>
      constructor
      · exact h.fired_has_result
      · intro w' hw' e' hph
        dsimp only at hw'
        rcases mem_setIdx _ _ _ _ hw' with h1 | h1
        · rw [h1] at hph
          simp at hph
        · exact h.waiting_id w' h1 e' hph
      · exact h.keys_nodup
      · exact h.key_eq
      · intro w' hw'
        dsimp only at hw'
        rcases mem_setIdx _ _ _ _ hw' with h1 | h1
        · rw [h1]
          simp
        · exact h.no_error w' h1

/-- Every reachable state satisfies the invariant. -/
theorem reachable_inv {s : Sys} (h : Reachable s) : SysInv s := by
  induction h with
  | init => exact SysInv.initial
  | step _ hstep ih => exact SysInv.preserved hstep ih

/-- How `pollStart` can change the signal dict: either not at all, or by
installing a fresh event for `id`. -/
theorem DefaultPoller.pollStart_evolution (σ : DefaultPoller) (id : MessageId)
    (excl : List PollingStatus) :
    ((σ.pollStart id excl).1.events = σ.events ∧
      (σ.pollStart id excl).1.nextGen = σ.nextGen) ∨
    ((σ.pollStart id excl).1.events = dictInsert id σ.nextGen σ.events ∧
      (σ.pollStart id excl).1.nextGen = σ.nextGen + 1) := by
  unfold DefaultPoller.pollStart
  cases hr : dictGet id σ.results with
  | none => cases he : dictGet id σ.events <;> simp [he]
  | some r =>
      by_cases hp : DefaultPoller.passesFilter excl r.status
      · simp [hp]
      · cases he : dictGet id σ.events <;> simp [hp, he]

/-- How `pollWake` can change the signal dict: either not at all, or by
installing a fresh event for `id` (the re-arm). -/
theorem DefaultPoller.pollWake_evolution (σ : DefaultPoller) (id : MessageId)
    (excl : List PollingStatus) :
    ((σ.pollWake id excl).1.events = σ.events ∧
      (σ.pollWake id excl).1.nextGen = σ.nextGen) ∨
    ((σ.pollWake id excl).1.events = dictInsert id σ.nextGen σ.events ∧
      (σ.pollWake id excl).1.nextGen = σ.nextGen + 1) := by
  unfold DefaultPoller.pollWake
  cases hr : dictGet id σ.results with
  | none => simp
  | some r =>
      by_cases hp : DefaultPoller.passesFilter excl r.status
      · simp [hp]
      · simp [hp]

/-! ### Trace lemmas -/

/-- A `poll` task that has not returned a result. -/
def notDone (ph : DefaultPoller.Phase) : Prop :=
  ∀ r : PollingResult, ph ≠ DefaultPoller.Phase.done r

theorem step_results_no_push {s s' : Sys} {a : Act} (hstep : Step s a s') (X : MessageId)
    (hn : a.isPushFor X = false) :
    dictGet X s'.store.results = dictGet X s.store.results := by
  cases hstep with
  | push id st d p =>
      have hne : X ≠ id := by
        intro hh
        subst hh
        simp [Act.isPushFor] at hn
      dsimp only
      rw [DefaultPoller.push_results, dictGet_insert_ne _ _ _ _ hne]
  | spawn id excl => rfl
  | startTask i w hw hp =>
      dsimp only
      rw [DefaultPoller.pollStart_results]
  | wakeTask i w e hw hp hf =>
      dsimp only
      rw [DefaultPoller.pollWake_results]
  | cancelTask i w e hw hp => rfl

theorem steps_results_no_push {s s' : Sys} {acts : List Act} (hs : Steps s acts s')
    (X : MessageId) (hn : ∀ a ∈ acts, a.isPushFor X = false) :
    dictGet X s'.store.results = dictGet X s.store.results := by
  induction hs with
  | nil => rfl
  | cons h1 _ ih =>
      rw [ih (fun a ha => hn a (List.mem_cons_of_mem _ ha)),
        step_results_no_push h1 X (hn _ (List.mem_cons_self _ _))]

/-- One step of the blocked-waiter argument: while every `push` for `id` has
status `accepted`, a `poll(id, [accepted])` task cannot return and the stored
record for `id` keeps status `accepted`. -/
theorem step_accepted_blocked {s s' : Sys} {a : Act} (hstep : Step s a s')
    (id : MessageId) (i : Nat) (w : Waiter)
    (hw : getIdx i s.waiters = some w) (hid : w.id = id)
    (hexcl : w.excl = [PollingStatus.accepted]) (hnd : notDone w.phase)
    (hrec : ∃ r, dictGet id s.store.results = some r ∧ r.status = PollingStatus.accepted)
    (ha : a.isCompletingPushFor id = false) :
    ∃ w', getIdx i s'.waiters = some w' ∧ w'.id = id ∧
      w'.excl = [PollingStatus.accepted] ∧ notDone w'.phase ∧
      ∃ r', dictGet id s'.store.results = some r' ∧ r'.status = PollingStatus.accepted := by
  obtain ⟨r, hr, hracc⟩ := hrec
  cases hstep with
  | push id' st d p =>
      refine ⟨w, hw, hid, hexcl, hnd, ?_⟩
      dsimp only
      rw [DefaultPoller.push_results]
      by_cases hii : id' = id
      · subst hii
        have hst : st = PollingStatus.accepted := by
          by_contra hst
          simp [Act.isCompletingPushFor, hst] at ha
        exact ⟨⟨id', st, d, p⟩, dictGet_insert_self _ _ _, hst⟩
      · rw [dictGet_insert_ne _ _ _ _ (fun hh => hii hh.symm)]
        exact ⟨r, hr, hracc⟩
  | spawn id' excl' =>
      exact ⟨w, getIdx_append_left i _ _ w hw, hid, hexcl, hnd, r, hr, hracc⟩
  | startTask j w2 hw2 hp2 =>
      by_cases hij : i = j
      · subst hij
        rw [hw] at hw2
        cases hw2
        refine ⟨_, getIdx_setIdx_self i _ _ w hw, hid, hexcl, ?_, ?_⟩
        · intro r' hdone
          rcases DefaultPoller.pollStart_done _ _ _ _ hdone with ⟨hr', hp'⟩
          rw [hid, hr] at hr'
          cases hr'
          rw [hexcl] at hp'
          rw [DefaultPoller.passesFilter_iff] at hp'
          simp [hracc] at hp'
        · dsimp only
          rw [DefaultPoller.pollStart_results]
          exact ⟨r, hr, hracc⟩
      · refine ⟨w, ?_, hid, hexcl, hnd, ?_⟩
        · dsimp only
          rw [getIdx_setIdx_ne i j _ _ hij]
          exact hw
        · dsimp only
          rw [DefaultPoller.pollStart_results]
          exact ⟨r, hr, hracc⟩
  | wakeTask j w2 e hw2 hp2 hf =>
      by_cases hij : i = j
      · subst hij
        rw [hw] at hw2
        cases hw2
        refine ⟨_, getIdx_setIdx_self i _ _ w hw, hid, hexcl, ?_, ?_⟩
        · intro r' hdone
          rcases DefaultPoller.pollWake_done _ _ _ _ hdone with ⟨hr', hp'⟩
          rw [hid, hr] at hr'
          cases hr'
          rw [hexcl] at hp'
          rw [DefaultPoller.passesFilter_iff] at hp'
          simp [hracc] at hp'
        · dsimp only
          rw [DefaultPoller.pollWake_results]
          exact ⟨r, hr, hracc⟩
      · refine ⟨w, ?_, hid, hexcl, hnd, ?_⟩
        · dsimp only
          rw [getIdx_setIdx_ne i j _ _ hij]
          exact hw
        · dsimp only
          rw [DefaultPoller.pollWake_results]
          exact ⟨r, hr, hracc⟩
  | cancelTask j w2 e hw2 hp2 =>
      by_cases hij : i = j
      · subst hij
        rw [hw] at hw2
        cases hw2
        refine ⟨_, getIdx_setIdx_self i _ _ w hw, hid, hexcl, ?_, r, hr, hracc⟩
        intro r' hdone
        simp at hdone
      · refine ⟨w, ?_, hid, hexcl, hnd, r, hr, hracc⟩
        dsimp only
        rw [getIdx_setIdx_ne i j _ _ hij]
        exact hw

/-- Trace version of `step_accepted_blocked`. -/
theorem steps_accepted_blocked {s s' : Sys} {acts : List Act} (hs : Steps s acts s')
    (id : MessageId) (i : Nat) (w : Waiter)
    (hw : getIdx i s.waiters = some w) (hid : w.id = id)
    (hexcl : w.excl = [PollingStatus.accepted]) (hnd : notDone w.phase)
    (hrec : ∃ r, dictGet id s.store.results = some r ∧ r.status = PollingStatus.accepted)
    (ha : ∀ a ∈ acts, a.isCompletingPushFor id = false) :
    ∃ w', getIdx i s'.waiters = some w' ∧ w'.id = id ∧
      w'.excl = [PollingStatus.accepted] ∧ notDone w'.phase ∧
      ∃ r', dictGet id s'.store.results = some r' ∧ r'.status = PollingStatus.accepted := by
  induction hs generalizing w with
  | nil => exact ⟨w, hw, hid, hexcl, hnd, hrec⟩
  | cons h1 _ ih =>
      obtain ⟨w', hw', hid', hexcl', hnd', hrec'⟩ :=
        step_accepted_blocked h1 id i w hw hid hexcl hnd hrec
          (ha _ (List.mem_cons_self _ _))
      exact ih w' hw' hid' hexcl' hnd' hrec'
          (fun a hha => ha a (List.mem_cons_of_mem _ hha))

/-- One step of the stale-event argument: an event generation that is not
fired, is no longer the current event of its id, and is older than the
generation counter can never be fired later. -/
theorem step_stale_event {s s' : Sys} {a : Act} (hstep : Step s a s')
    (id : MessageId) (g : Nat)
    (h1 : (id, g) ∉ s.store.fired)
    (h2 : dictGet id s.store.events ≠ some g)
    (h3 : g < s.store.nextGen) :
    (id, g) ∉ s'.store.fired ∧ dictGet id s'.store.events ≠ some g ∧
      g < s'.store.nextGen := by
  cases hstep with
  | push id' st d p =>
      have hev := DefaultPoller.push_events s.store id' st d p
      have hng := DefaultPoller.push_nextGen s.store id' st d p
      refine ⟨?_, by dsimp only; rw [hev]; exact h2, by dsimp only; rw [hng]; exact h3⟩
      dsimp only
      rcases h0 : dictGet id' s.store.events with _ | g'
      · rw [DefaultPoller.push_fired_none _ _ _ _ _ h0]
        exact h1
      · rw [DefaultPoller.push_fired_some _ _ _ _ _ g' h0]
        intro hm
        rcases DefaultPoller.mem_fireEvent _ _ _ hm with hh | hh
        · have hid : id = id' := congrArg Prod.fst hh
          have hg : g = g' := congrArg Prod.snd hh
          subst hid
          subst hg
          exact h2 h0
        · exact h1 hh
  | spawn id' excl' => exact ⟨h1, h2, h3⟩
  | startTask i w hw hp =>
      have hfir := DefaultPoller.pollStart_fired s.store w.id w.excl
      rcases DefaultPoller.pollStart_evolution s.store w.id w.excl with
        ⟨hev, hng⟩ | ⟨hev, hng⟩
      · exact ⟨by dsimp only; rw [hfir]; exact h1,
          by dsimp only; rw [hev]; exact h2, by dsimp only; rw [hng]; exact h3⟩
      · refine ⟨by dsimp only; rw [hfir]; exact h1, ?_, ?_⟩
        · dsimp only
          rw [hev]
          by_cases hii : id = w.id
          · subst hii
            rw [dictGet_insert_self]
            intro hh
            cases hh
            omega
          · rw [dictGet_insert_ne _ _ _ _ hii]
            exact h2
        · dsimp only
          rw [hng]
          omega
  | wakeTask i w e hw hp hf =>
      have hfir := DefaultPoller.pollWake_fired s.store w.id w.excl
      rcases DefaultPoller.pollWake_evolution s.store w.id w.excl with
        ⟨hev, hng⟩ | ⟨hev, hng⟩
      · exact ⟨by dsimp only; rw [hfir]; exact h1,
          by dsimp only; rw [hev]; exact h2, by dsimp only; rw [hng]; exact h3⟩
      · refine ⟨by dsimp only; rw [hfir]; exact h1, ?_, ?_⟩
        · dsimp only
          rw [hev]
          by_cases hii : id = w.id
          · subst hii
            rw [dictGet_insert_self]
            intro hh
            cases hh
            omega
          · rw [dictGet_insert_ne _ _ _ _ hii]
            exact h2
        · dsimp only
          rw [hng]
          omega
  | cancelTask i w e hw hp => exact ⟨h1, h2, h3⟩

/-- Trace version of `step_stale_event`: a stale event generation stays
unfired along every continuation. -/
theorem steps_stale_event {s s' : Sys} {acts : List Act} (hs : Steps s acts s')
    (id : MessageId) (g : Nat)
    (h1 : (id, g) ∉ s.store.fired)
    (h2 : dictGet id s.store.events ≠ some g)
    (h3 : g < s.store.nextGen) :
    (id, g) ∉ s'.store.fired := by
  induction hs with
  | nil => exact h1
  | cons hst _ ih =>
      obtain ⟨h1', h2', h3'⟩ := step_stale_event hst id g h1 h2 h3
      exact ih h1' h2' h3'

theorem dictGet_mem (k : MessageId) (l : List (MessageId × α)) (v : α)
    (h : dictGet k l = some v) : (k, v) ∈ l := by
  induction l with
  | nil => simp [dictGet] at h
  | cons hd tl ih =>
      obtain ⟨k₀, v₀⟩ := hd
      by_cases h0 : k₀ = k
      · subst h0
        simp [dictGet] at h
        subst h
        exact List.mem_cons_self _ _
      · simp [dictGet, h0] at h
        exact List.mem_cons_of_mem _ (ih h)

theorem DefaultPoller.peek_some (σ : DefaultPoller) (id : MessageId)
    (excl : List PollingStatus) (r : PollingResult)
    (h : σ.peek id excl = some r) : dictGet id σ.results = some r := by
  unfold DefaultPoller.peek at h
  cases hr : dictGet id σ.results with
  | none => rw [hr] at h; simp at h
  | some r' =>
      rw [hr] at h
      by_cases hc : (!excl.isEmpty && decide (r'.status ∈ excl)) = true
      · simp [hc] at h
      · simp [hc] at h
        rw [h]

/-! ### The claims -/

/-- C1: `DefaultPoller.poll` never returns a record whose status is in
`exclude_statuses` (whenever either segment of `poll` returns a record, it is
the currently stored record and its status is not excluded); if a record
that passes the filter exists at call time, `poll` returns it immediately
without suspending and without touching the store; and along any execution
in which every `push` for `id` carries status `accepted`, a
`poll(id, [accepted])` task never returns and the stored record for `id`
keeps status `accepted` (so after `push(id, accepted)` the poll cannot return
until a push with status `succeeded` or `failed`, and what it then returns is
the stored later record, never the accepted one). -/
theorem c1_poll_filter_and_immediacy :
    (∀ (σ σ' : DefaultPoller) (id : MessageId) (excl : List PollingStatus)
        (r : PollingResult), σ.pollStart id excl = (σ', DefaultPoller.Phase.done r) →
        dictGet id σ.results = some r ∧ r.status ∉ excl) ∧
    (∀ (σ σ' : DefaultPoller) (id : MessageId) (excl : List PollingStatus)
        (r : PollingResult), σ.pollWake id excl = (σ', DefaultPoller.Phase.done r) →
        dictGet id σ.results = some r ∧ r.status ∉ excl) ∧
    (∀ (σ : DefaultPoller) (id : MessageId) (excl : List PollingStatus)
        (r : PollingResult), dictGet id σ.results = some r →
        DefaultPoller.passesFilter excl r.status = true →
        σ.pollStart id excl = (σ, DefaultPoller.Phase.done r)) ∧
    (∀ {s s' : Sys} {acts : List Act}, Steps s acts s' →
      ∀ (id : MessageId) (i : Nat) (w : Waiter),
        getIdx i s.waiters = some w → w.id = id →
        w.excl = [PollingStatus.accepted] → notDone w.phase →
        (∃ r, dictGet id s.store.results = some r ∧
          r.status = PollingStatus.accepted) →
        (∀ a ∈ acts, a.isCompletingPushFor id = false) →
        ∃ w', getIdx i s'.waiters = some w' ∧ w'.id = id ∧
          w'.excl = [PollingStatus.accepted] ∧ notDone w'.phase ∧
          ∃ r', dictGet id s'.store.results = some r' ∧
            r'.status = PollingStatus.accepted) := by
  refine ⟨?_, ?_, ?_, ?_⟩
  · intro σ σ' id excl r h
    obtain ⟨hr, hp⟩ :=
      DefaultPoller.pollStart_done σ id excl r (congrArg Prod.snd h)
    exact ⟨hr, (DefaultPoller.passesFilter_iff excl r.status).mp hp⟩
  · intro σ σ' id excl r h
    obtain ⟨hr, hp⟩ :=
      DefaultPoller.pollWake_done σ id excl r (congrArg Prod.snd h)
    exact ⟨hr, (DefaultPoller.passesFilter_iff excl r.status).mp hp⟩
  · intro σ id excl r hr hp
    exact DefaultPoller.pollStart_immediate σ id excl r hr hp
  · intro s s' acts hs id i w hw hid hexcl hnd hrec ha
    exact steps_accepted_blocked hs id i w hw hid hexcl hnd hrec ha

/-- C1 witness: at a concrete store holding a succeeded record for id 0,
`poll(0, [accepted])` returns that record immediately, store untouched. -/
theorem c1_witness :
    (DefaultPoller.init.push 0 PollingStatus.succeeded none none).pollStart 0
        [PollingStatus.accepted] =
      (DefaultPoller.init.push 0 PollingStatus.succeeded none none,
       DefaultPoller.Phase.done ⟨0, PollingStatus.succeeded, none, none⟩) :=
  c1_poll_filter_and_immediacy.2.2.1 _ 0 [PollingStatus.accepted]
    ⟨0, PollingStatus.succeeded, none, none⟩ (by decide) (by decide)

/-- C2: last-write-wins — after two pushes for the same id, an unfiltered
`peek` returns exactly the record built from the second push (fully
replacing the first); the results dict of every reachable state has at most
one entry per id; and `poll` segments never modify the results dict (so the
above holds regardless of interleaved concurrent `poll` calls). -/
theorem c2_last_write_wins :
    (∀ (σ : DefaultPoller) (id : MessageId) (s1 s2 : PollingStatus)
        (d1 d2 : Option Payload) (p1 p2 : Option ProblemDetails),
        ((σ.push id s1 d1 p1).push id s2 d2 p2).peek id [] = some ⟨id, s2, d2, p2⟩) ∧
    (∀ s : Sys, Reachable s → (s.store.results.map Prod.fst).Nodup) ∧
    (∀ (σ : DefaultPoller) (id : MessageId) (excl : List PollingStatus),
        (σ.pollStart id excl).1.results = σ.results ∧
        (σ.pollWake id excl).1.results = σ.results) := by
  refine ⟨?_, ?_, ?_⟩
  · intro σ id s1 s2 d1 d2 p1 p2
    have hres : dictGet id ((σ.push id s1 d1 p1).push id s2 d2 p2).results
        = some ⟨id, s2, d2, p2⟩ := by
      rw [DefaultPoller.push_results]
      exact dictGet_insert_self _ _ _
    unfold DefaultPoller.peek
    rw [hres]
    simp
  · intro s hs
    exact (reachable_inv hs).keys_nodup
  · intro σ id excl
    exact ⟨DefaultPoller.pollStart_results σ id excl,
      DefaultPoller.pollWake_results σ id excl⟩

/-- C2 witness: concrete double push on a fresh store, plus the invariant at
the initial system. -/
theorem c2_witness :
    ((DefaultPoller.init.push 0 PollingStatus.accepted none none).push 0
        PollingStatus.succeeded none none).peek 0 [] =
      some ⟨0, PollingStatus.succeeded, none, none⟩ ∧
    (initSys.store.results.map Prod.fst).Nodup :=
  ⟨c2_last_write_wins.1 DefaultPoller.init 0 PollingStatus.accepted
      PollingStatus.succeeded none none none none,
   c2_last_write_wins.2.1 initSys Reachable.init⟩

/-- C3 counterexample: a `push` for an id that no `poll` has ever registered
a signal for performs zero `Event.set()` calls, not exactly one — the
`if message_id in self.events` guard skips the notification entirely. -/
theorem c3_counterexample :
    DefaultPoller.init.pushSetCalls 5 = 0 ∧ DefaultPoller.init.pushSetCalls 5 ≠ 1 := by
  decide

/-- C3 (amended): `push(id, ...)` performs exactly one `Event.set()` call iff
a signal for `id` exists in the events dict, and zero otherwise (in
particular zero when no waiter has ever polled `id`); when a signal exists it
is the one fired, releasing every waiter suspended on the current signal for
`id`; and `push` always succeeds, storing the record unconditionally. -/
theorem c3_push_notification :
    (∀ (σ : DefaultPoller) (id : MessageId),
        (σ.pushSetCalls id = 1 ↔ (dictGet id σ.events).isSome = true) ∧
        (σ.pushSetCalls id = 0 ↔ dictGet id σ.events = none)) ∧
    (∀ (σ : DefaultPoller) (id : MessageId) (st : PollingStatus)
        (d : Option Payload) (p : Option ProblemDetails) (g : Nat),
        dictGet id σ.events = some g → (id, g) ∈ (σ.push id st d p).fired) ∧
    (∀ (σ : DefaultPoller) (id : MessageId) (st : PollingStatus)
        (d : Option Payload) (p : Option ProblemDetails),
        (σ.push id st d p).results = dictInsert id ⟨id, st, d, p⟩ σ.results) := by
  refine ⟨?_, ?_, ?_⟩
  · intro σ id
    unfold DefaultPoller.pushSetCalls
    cases h : dictGet id σ.events <;> simp [h]
  · intro σ id st d p g h
    rw [DefaultPoller.push_fired_some _ _ _ _ _ g h]
    exact DefaultPoller.mem_fireEvent_self _ _
  · intro σ id st d p
    exact DefaultPoller.push_results σ id st d p

/-- C3 witness: after `poll(0)` registers a signal (generation 0), a push for
id 0 fires exactly that signal. -/
theorem c3_witness :
    ((0 : MessageId), (0 : Nat)) ∈
      ((DefaultPoller.pollStart DefaultPoller.init 0 []).1.push 0
        PollingStatus.succeeded none none).fired :=
  c3_push_notification.2.1 _ 0 PollingStatus.succeeded none none 0 (by decide)

/-- C4: the store never raises — in every reachable state, every fired
signal's id has a stored record (signals are only fired by the push that
stored a record for that id, and records are never deleted), no `poll` task
has ever hit the unguarded `self.results[message_id]` lookup with the key
absent, and a woken waiter's loop body cannot error. -/
theorem c4_never_raises :
    ∀ s : Sys, Reachable s →
      (∀ e ∈ s.store.fired, (dictGet e.1 s.store.results).isSome = true) ∧
      (∀ w ∈ s.waiters, w.phase ≠ DefaultPoller.Phase.error) ∧
      (∀ (i : Nat) (w : Waiter) (e : EventId), getIdx i s.waiters = some w →
        w.phase = DefaultPoller.Phase.waiting e → e ∈ s.store.fired →
        (s.store.pollWake w.id w.excl).2 ≠ DefaultPoller.Phase.error) := by
  intro s hs
  have hinv := reachable_inv hs
  refine ⟨hinv.fired_has_result, hinv.no_error, ?_⟩
  intro i w e hw hp hf
  have hwid : e.1 = w.id := hinv.waiting_id w (mem_of_getIdx i _ w hw) e hp
  exact DefaultPoller.pollWake_not_error _ _ _ (hwid ▸ hinv.fired_has_result e hf)

/-- The reachable state used by witnesses: `poll(0)` arrives and suspends,
then `push(0, succeeded)` stores a record and fires the signal. -/
def wSys : Sys :=
  ⟨⟨[(0, ⟨0, PollingStatus.succeeded, none, none⟩)], [(0, 0)], [(0, 0)], 1⟩,
   [⟨0, [], DefaultPoller.Phase.waiting (0, 0)⟩]⟩

theorem wSys_reachable : Reachable wSys := by
  have h1 := Reachable.step Reachable.init (Step.spawn initSys 0 [])
  have h2 := Reachable.step h1
    (Step.startTask _ 0 ⟨0, [], DefaultPoller.Phase.start⟩ rfl rfl)
  have h3 := Reachable.step h2 (Step.push _ 0 PollingStatus.succeeded none none)
  exact h3

/-- C4 witness: at a concrete reachable state with a fired signal and a
suspended waiter, the woken loop body does not error. -/
theorem c4_witness :
    (wSys.store.pollWake 0 []).2 ≠ DefaultPoller.Phase.error :=
  (c4_never_raises wSys wSys_reachable).2.2 0
    ⟨0, [], DefaultPoller.Phase.waiting (0, 0)⟩ (0, 0) rfl rfl (by decide)

/-- C5: timeout semantics of `PollerWithTimeout.poll` — when the bound
elapses, the `TimeoutError` raised by `anyio.fail_after` is translated into
the distinct `PollingTimeoutError`; cancelling the abandoned wait leaves the
store untouched; and for an identifier never pushed, no record exists after
any execution (the store retains no record for it). -/
theorem c5_timeout_semantics :
    (PollerWithTimeout.translateTimeout RaisedKind.timeoutError =
      RaisedKind.pollingTimeoutError) ∧
    (RaisedKind.pollingTimeoutError ≠ RaisedKind.timeoutError) ∧
    (∀ (s s' : Sys) (i : Nat), Step s (Act.cancelTask i) s' → s'.store = s.store) ∧
    (∀ (X : MessageId) (acts : List Act) (s' : Sys), Steps initSys acts s' →
        (∀ a ∈ acts, a.isPushFor X = false) →
        dictGet X s'.store.results = none) := by
  refine ⟨rfl, by decide, ?_, ?_⟩
  · intro s s' i hstep
    cases hstep
    rfl
  · intro X acts s' hs hn
    rw [steps_results_no_push hs X hn]
    rfl

/-- The state used by the C5 witness: `poll(0)` arrives, suspends, and is
abandoned by a timeout; no push ever occurs. -/
def cSys : Sys := ⟨⟨[], [(0, 0)], [], 1⟩, [⟨0, [], DefaultPoller.Phase.cancelled⟩]⟩

theorem cSys_steps :
    Steps initSys [Act.spawn 0 [], Act.startTask 0, Act.cancelTask 0] cSys :=
  Steps.cons (Step.spawn initSys 0 [])
    (Steps.cons (Step.startTask _ 0 ⟨0, [], DefaultPoller.Phase.start⟩ rfl rfl)
      (Steps.cons
        (Step.cancelTask _ 0 ⟨0, [], DefaultPoller.Phase.waiting (0, 0)⟩ (0, 0) rfl rfl)
        (Steps.nil _)))

/-- C5 witness: after a concrete abandoned `poll(0)` with no push, the store
retains no record for id 0. -/
theorem c5_witness : dictGet 0 cSys.store.results = none :=
  c5_timeout_semantics.2.2.2 0 [Act.spawn 0 [], Act.startTask 0, Act.cancelTask 0]
    cSys cSys_steps (by decide)

/-- C6 counterexample: invoking the failure bridge (no `problem_factory`
configured) with an exception whose raw message text is `"error"` pushes a
failed record whose problem detail is the fixed generic sentence — which
does contain the substring `"error"`, so "detail does not contain the raw
exception message text" fails for this exception. -/
theorem c6_counterexample :
    (ErrorHandlerPollerWrapper.handle_poison_message DefaultPoller.init ⟨⟨7⟩⟩ 0
        "error").2.results =
      [(7, ⟨7, PollingStatus.failed, none,
        some (ErrorHandlerPollerWrapper.default_problem_factory "error" ⟨⟨7⟩⟩)⟩)] ∧
    (ErrorHandlerPollerWrapper.default_problem_factory "error" ⟨⟨7⟩⟩).detail =
      some ErrorHandlerPollerWrapper.defaultDetailText ∧
    strContainsSub ErrorHandlerPollerWrapper.defaultDetailText "error" = true := by
  refine ⟨rfl, rfl, by decide⟩

/-- C6 (amended): with no `problem_factory` configured,
`handle_poison_message` first forwards the message, transaction context and
exception to the wrapped error handler unchanged, then pushes a record for
`message.headers.message_id` with status failed whose problem has status 500
and whose detail is a fixed generic sentence that does not depend on the
exception — so the detail contains the raw exception text only in the
degenerate case where that text happens to be a substring of the fixed
sentence. -/
theorem c6_failure_bridge :
    ∀ (σ : DefaultPoller) (msg : TransportMessage) (ctx : TransactionContext)
      (exc : PyException),
      (ErrorHandlerPollerWrapper.handle_poison_message σ msg ctx exc).1 =
        (msg, ctx, exc) ∧
      dictGet msg.headers.message_id
          (ErrorHandlerPollerWrapper.handle_poison_message σ msg ctx exc).2.results =
        some ⟨msg.headers.message_id, PollingStatus.failed, none,
          some (ErrorHandlerPollerWrapper.default_problem_factory exc msg)⟩ ∧
      (ErrorHandlerPollerWrapper.default_problem_factory exc msg).status = 500 ∧
      (ErrorHandlerPollerWrapper.default_problem_factory exc msg).detail =
        some ErrorHandlerPollerWrapper.defaultDetailText ∧
      (strContainsSub ErrorHandlerPollerWrapper.defaultDetailText exc = false →
        ∀ d, (ErrorHandlerPollerWrapper.default_problem_factory exc msg).detail =
            some d → strContainsSub d exc = false) := by
  intro σ msg ctx exc
  refine ⟨rfl, ?_, rfl, rfl, ?_⟩
  · unfold ErrorHandlerPollerWrapper.handle_poison_message
    dsimp only
    rw [DefaultPoller.push_results]
    exact dictGet_insert_self _ _ _
  · intro h d hd
    have : d = ErrorHandlerPollerWrapper.defaultDetailText := by
      injection hd with hd'
      exact hd'.symm
    rw [this]
    exact h

/-- C6 witness: for the typical exception text `"boom"`, which is not a
substring of the fixed sentence, the stored detail does not contain it. -/
theorem c6_witness :
    strContainsSub ErrorHandlerPollerWrapper.defaultDetailText "boom" = false :=
  (c6_failure_bridge DefaultPoller.init ⟨⟨1⟩⟩ 0 "boom").2.2.2.2 (by decide)
    ErrorHandlerPollerWrapper.defaultDetailText rfl

/-- C7: the derived predicates of `PollingResult` — `is_accepted` iff status
is accepted; `is_success` iff status succeeded and problem absent;
`is_failure` iff status failed or problem present; and a succeeded record
with a present problem is classified failure and not success. -/
theorem c7_result_predicates :
    ∀ r : PollingResult,
      (r.is_accepted = true ↔ r.status = PollingStatus.accepted) ∧
      (r.is_success = true ↔ (r.status = PollingStatus.succeeded ∧ r.problem = none)) ∧
      (r.is_failure = true ↔
        (r.status = PollingStatus.failed ∨ r.problem ≠ none)) ∧
      ((r.status = PollingStatus.succeeded ∧ r.problem ≠ none) →
        r.is_failure = true ∧ r.is_success = false) := by
  intro r
  obtain ⟨id, st, d, p⟩ := r
  cases st <;> cases p <;>
    simp [PollingResult.is_accepted, PollingResult.is_success,
      PollingResult.is_failure]

/-- C7 witness: a concrete succeeded record with a problem present is
failure and not success. -/
theorem c7_witness :
    PollingResult.is_failure
        ⟨0, PollingStatus.succeeded, none, some ⟨"t", "t", 500, none, none, []⟩⟩ = true ∧
    PollingResult.is_success
        ⟨0, PollingStatus.succeeded, none, some ⟨"t", "t", 500, none, none, []⟩⟩ = false :=
  (c7_result_predicates
      ⟨0, PollingStatus.succeeded, none, some ⟨"t", "t", 500, none, none, []⟩⟩).2.2.2
    ⟨rfl, by decide⟩

/-- C8: the configuration module does not declare what the claim (and
`__init__.py`, and the tests) require — `PollingConfig` in config.py has no
`accepted_events_map` field, config.py defines no `AcceptedCorrelation`
class, yet `__init__.py` imports `AcceptedCorrelation` from `.config`
(making `import mersal_polling` fail). -/
theorem c8_config_missing_accepted :
    "accepted_events_map" ∉ pollingConfigFields ∧
    "AcceptedCorrelation" ∉ configModuleClasses ∧
    "AcceptedCorrelation" ∈ initImportsFromConfig := by
  decide

/-- The end state of the lost-wakeup execution: waiter 0 is suspended on the
replaced signal generation (5,1), which is not fired and — as the theorem
shows — never can be. -/
def lostFinal : Sys :=
  ⟨⟨[(5, ⟨5, PollingStatus.succeeded, none, none⟩)], [(5, 2)], [(5, 2), (5, 0)], 3⟩,
   [⟨5, [PollingStatus.accepted], DefaultPoller.Phase.waiting (5, 1)⟩,
    ⟨5, [PollingStatus.accepted],
      DefaultPoller.Phase.done ⟨5, PollingStatus.succeeded, none, none⟩⟩]⟩

/-- C9: lost wakeup — two `poll(5, [accepted])` tasks both woken by
`push(5, accepted)` re-arm by unconditionally replacing `events[5]`; the
second replacement orphans the first task's fresh signal, so after
`push(5, succeeded)` the second task returns the succeeded record while the
first is left suspended on generation (5,1), which is not fired and can
never be fired by any continuation of the execution — the waiter misses the
later push, contradicting the no-lost-wakeup requirement. -/
theorem c9_lost_wakeup :
    Steps initSys
      [Act.spawn 5 [PollingStatus.accepted], Act.spawn 5 [PollingStatus.accepted],
       Act.startTask 0, Act.startTask 1, Act.push 5 PollingStatus.accepted none none,
       Act.wakeTask 0, Act.wakeTask 1, Act.push 5 PollingStatus.succeeded none none,
       Act.wakeTask 1] lostFinal ∧
    getIdx 0 lostFinal.waiters =
      some ⟨5, [PollingStatus.accepted], DefaultPoller.Phase.waiting (5, 1)⟩ ∧
    getIdx 1 lostFinal.waiters =
      some ⟨5, [PollingStatus.accepted],
        DefaultPoller.Phase.done ⟨5, PollingStatus.succeeded, none, none⟩⟩ ∧
    ((5, 1) : EventId) ∉ lostFinal.store.fired ∧
    (∀ (acts : List Act) (s' : Sys), Steps lostFinal acts s' →
      ((5, 1) : EventId) ∉ s'.store.fired) := by
  refine ⟨?_, rfl, rfl, by decide, ?_⟩
  · exact
      Steps.cons (Step.spawn initSys 5 [PollingStatus.accepted])
        (Steps.cons (Step.spawn _ 5 [PollingStatus.accepted])
          (Steps.cons
            (Step.startTask _ 0
              ⟨5, [PollingStatus.accepted], DefaultPoller.Phase.start⟩ rfl rfl)
            (Steps.cons
              (Step.startTask _ 1
                ⟨5, [PollingStatus.accepted], DefaultPoller.Phase.start⟩ rfl rfl)
              (Steps.cons (Step.push _ 5 PollingStatus.accepted none none)
                (Steps.cons
                  (Step.wakeTask _ 0
                    ⟨5, [PollingStatus.accepted],
                      DefaultPoller.Phase.waiting (5, 0)⟩ (5, 0) rfl rfl (by decide))
                  (Steps.cons
                    (Step.wakeTask _ 1
                      ⟨5, [PollingStatus.accepted],
                        DefaultPoller.Phase.waiting (5, 0)⟩ (5, 0) rfl rfl (by decide))
                    (Steps.cons (Step.push _ 5 PollingStatus.succeeded none none)
                      (Steps.cons
                        (Step.wakeTask _ 1
                          ⟨5, [PollingStatus.accepted],
                            DefaultPoller.Phase.waiting (5, 2)⟩ (5, 2) rfl rfl
                          (by decide))
                        (Steps.nil _)))))))))
  · intro acts s' hs
    exact steps_stale_event hs 5 1 (by decide) (by decide) (by decide)

/-- C9 witness: the orphaned generation (5,1) is unfired in the end state
(the empty continuation of the execution). -/
theorem c9_witness : ((5, 1) : EventId) ∉ lostFinal.store.fired :=
  c9_lost_wakeup.2.2.2.2 [] lostFinal (Steps.nil lostFinal)

/-- C10: key/field agreement — in every reachable state, every record stored
under key `k` has `message_id = k` (push always builds the stored record
with `message_id = id`), so every record returned by `peek` or by either
segment of `poll` carries the id it was requested under. -/
theorem c10_key_field_agreement :
    ∀ s : Sys, Reachable s →
      (∀ p ∈ s.store.results, (p.2).message_id = p.1) ∧
      (∀ (id : MessageId) (excl : List PollingStatus) (r : PollingResult),
          s.store.peek id excl = some r → r.message_id = id) ∧
      (∀ (id : MessageId) (excl : List PollingStatus) (r : PollingResult),
          (s.store.pollStart id excl).2 = DefaultPoller.Phase.done r →
          r.message_id = id) ∧
      (∀ (id : MessageId) (excl : List PollingStatus) (r : PollingResult),
          (s.store.pollWake id excl).2 = DefaultPoller.Phase.done r →
          r.message_id = id) := by
  intro s hs
  have hinv := reachable_inv hs
  refine ⟨hinv.key_eq, ?_, ?_, ?_⟩
  · intro id excl r h
    exact hinv.key_eq (id, r) (dictGet_mem _ _ _ (DefaultPoller.peek_some _ _ _ _ h))
  · intro id excl r h
    exact hinv.key_eq (id, r)
      (dictGet_mem _ _ _ (DefaultPoller.pollStart_done _ _ _ _ h).1)
  · intro id excl r h
    exact hinv.key_eq (id, r)
      (dictGet_mem _ _ _ (DefaultPoller.pollWake_done _ _ _ _ h).1)

/-- C10 witness: at a concrete reachable state, the record `peek(0)` returns
carries id 0. -/
theorem c10_witness :
    PollingResult.message_id ⟨0, PollingStatus.succeeded, none, none⟩ = 0 :=
  (c10_key_field_agreement wSys wSys_reachable).2.1 0 []
    ⟨0, PollingStatus.succeeded, none, none⟩ (by decide)
